import Mathlib

/-!
Shallow embedding of `src/main.py` (reaction-relay bot): line splitting,
the e-mail/domain regex search, domain resolution, Slack-message text
extraction, the mapping cache, the authorization gate and the event handler.
Each definition mirrors one Python function; theorems settle the frozen
claims about the program.
-/

set_option maxRecDepth 8192

namespace ReaccionReus

/-- ASCII whitespace as matched by Python's regex class for whitespace
(space, tab, LF, CR, VT, FF). -/
def isWsChar (c : Char) : Bool :=
  c == ' ' || c == '\t' || c == '\n' || c == '\r' ||
  c == Char.ofNat 11 || c == Char.ofNat 12

/-- Worker for `py_splitlines`: models Python `str.splitlines()` for the
LF, CRLF and CR separators (the ones occurring in Slack payloads): every
separator terminates a line, and a final fragment is emitted only when
non-empty. -/
def splitlinesGo : List Char → List Char → List String
  | [], acc => if acc.isEmpty then [] else [String.mk acc.reverse]
  | '\r' :: '\n' :: rest, acc => String.mk acc.reverse :: splitlinesGo rest []
  | '\n' :: rest, acc => String.mk acc.reverse :: splitlinesGo rest []
  | '\r' :: rest, acc => String.mk acc.reverse :: splitlinesGo rest []
  | c :: rest, acc => splitlinesGo rest (c :: acc)

/-- Python `text.splitlines()`. -/
def py_splitlines (s : String) : List String :=
  splitlinesGo s.data []

/-- `hasPrefixL n h` holds when the char list `n` starts the char list `h`. -/
def hasPrefixL : List Char → List Char → Bool
  | [], _ => true
  | _ :: _, [] => false
  | a :: as, b :: bs => a == b && hasPrefixL as bs

/-- Python substring containment (the `in` operator on `str`), on char lists. -/
def containsSub (needle : List Char) : List Char → Bool
  | [] => needle.isEmpty
  | c :: rest => hasPrefixL needle (c :: rest) || containsSub needle rest

/-- The fixed marker phrase looked up in each line of the message text. -/
def markerChars : List Char := "Desde qué mail salió la reunión".data

/-- Whether a line contains the marker phrase, as in
`"Desde qué mail salió la reunión" in line`. -/
def hasMarker (l : String) : Bool := containsSub markerChars l.data

/-- The first alternative of the regex in `extract_domain_from_text`:
a bracketed mailto link. Matching it at the start of `cs` requires the
literal `<mailto:`, a non-empty run of non-`@` chars, an `@`, then the
captured group is the maximal non-empty run free of `>` and `|`, and the
overall match needs a later `>` (the trailing `[^>]*>` part); with
backtracking this succeeds exactly when some `>` occurs at or after the
end of the captured run. -/
def matchMailto (cs : List Char) : Option (List Char) :=
  if cs.take 8 == "<mailto:".data then
    match (cs.drop 8).span (fun c => c != '@') with
    | (localPart, '@' :: afterAt) =>
      if localPart.isEmpty then none
      else
        let dom := (afterAt.span (fun c => c != '>' && c != '|')).1
        let afterDom := (afterAt.span (fun c => c != '>' && c != '|')).2
        if dom.isEmpty then none
        else if afterDom.contains '>' then some dom
        else none
    | _ => none
  else none

/-- The captured group of the second regex alternative, when the `@` sits
at offset `k` of `cs`: the maximal run after the `@` of chars that are
neither whitespace nor `>`. -/
def bareTail (cs : List Char) (k : Nat) : List Char :=
  ((cs.drop (k + 1)).span (fun c => c != '>' && !isWsChar c)).1

/-- The second alternative of the regex: a bare `user@domain` token. The
part before the `@` is a non-empty greedy run of chars that are neither
`<` nor whitespace; backtracking picks the largest offset `k` inside that
run holding an `@` such that the captured tail after it is non-empty. -/
def matchBare (cs : List Char) : Option (List Char) :=
  let run := (cs.span (fun c => c != '<' && !isWsChar c)).1
  let ks := (List.range run.length).filter
    (fun k => k != 0 && run.getD k ' ' == '@' && !(bareTail cs k).isEmpty)
  match ks.getLast? with
  | some k => some (bareTail cs k)
  | none => none

/-- `re.search` with the two-alternative e-mail pattern of
`extract_domain_from_text`: leftmost match wins, and at a given start the
mailto alternative is tried before the bare one (they are in fact mutually
exclusive on the first char). Returns the captured domain chars. -/
def searchEmailAux : List Char → Option (List Char)
  | [] => none
  | c :: rest =>
    match matchMailto (c :: rest) with
    | some d => some d
    | none =>
      match matchBare (c :: rest) with
      | some d => some d
      | none => searchEmailAux rest

/-- First line of the list whose regex search succeeds, with its capture
(the inner loop over the 4-line window). -/
def firstMatch : List String → Option (List Char)
  | [] => none
  | l :: rest =>
    match searchEmailAux l.data with
    | some d => some d
    | none => firstMatch rest

/-- Index of the first line containing the marker phrase (the
`for i, line in enumerate(lines)` loop). -/
def findMarkerIdx : List String → Option Nat
  | [] => none
  | l :: rest =>
    if hasMarker l then some 0
    else (findMarkerIdx rest).map (· + 1)

/-- Python `str.strip()` on char lists: drop whitespace at both ends. -/
def pyStrip (cs : List Char) : List Char :=
  ((cs.dropWhile isWsChar).reverse.dropWhile isWsChar).reverse

/-- Python `str.lower()` on char lists (ASCII case folding). -/
def pyLower (cs : List Char) : List Char :=
  cs.map Char.toLower

/-- Python `str.strip()` on strings. -/
def pyStripS (s : String) : String := String.mk (pyStrip s.data)

/-- Python `str.lower()` on strings. -/
def pyLowerS (s : String) : String := String.mk (pyLower s.data)

/-- Chars stripped from the tail of a window-path capture by
`re.sub` over the trailing-noise class. -/
def tailNoise (c : Char) : Bool :=
  c == '>' || c == '|' || c == ')' || c == ']' ||
  c == '.' || c == ',' || c == ';' || c == ':'

/-- Remove every trailing noise char (the `re.sub` with an end anchor). -/
def cleanTail (s : String) : String :=
  String.mk ((s.data.reverse.dropWhile tailNoise).reverse)

/-- Normalization applied on a window-path capture: Python
`.strip().lower()` followed by the trailing-noise `re.sub`. -/
def normWindow (cap : List Char) : String :=
  cleanTail (String.mk (pyLower (pyStrip cap)))

/-- Normalization applied on a fallback-path capture: Python
`.strip().lower()` only (the source applies no trailing-noise cleanup
on this path). -/
def normFallback (cap : List Char) : String :=
  String.mk (pyLower (pyStrip cap))

/-- `extract_domain_from_text(text)` from `src/main.py`: find the first
marker line, search it and the next three lines for an e-mail, normalize
and return; with no marker line, or an exhausted window, fall back to one
whole-text search. (The source's first `for` loop only executes `pass`
and is omitted.) -/
def extract_domain_from_text (text : String) : Option String :=
  let lines := py_splitlines text
  match findMarkerIdx lines with
  | some i =>
    match firstMatch ((lines.drop i).take 4) with
    | some cap => some (normWindow cap)
    | none => (searchEmailAux text.data).map normFallback
  | none => (searchEmailAux text.data).map normFallback

/-- Inner element of a rich-text section: the source reads `e["text"]` for
`"text"`-typed elements and `e["url"]` for `"link"`-typed ones; anything
else is ignored. -/
inductive RichEl where
  | textEl (s : String)
  | linkEl (url : String)
  | otherEl
deriving DecidableEq

/-- Element of a `rich_text` block: only `"rich_text_section"` elements are
descended into. -/
inductive SectionEl where
  | richSection (els : List RichEl)
  | otherPart
deriving DecidableEq

/-- A block's `text` field when it is a dict: its `type` and `text` entries. -/
structure TextObj where
  type : String
  text : String
deriving DecidableEq

/-- One entry of a message's `blocks` list: its `type`, its `text` field
(`none` when absent or not a dict) and its `elements`. -/
structure Block where
  type : String
  textObj : Option TextObj
  elements : List SectionEl
deriving DecidableEq

/-- Fragments contributed by one rich-text element (`collect_text_from_blocks`
appends `e["text"]` or `e["url"]` when truthy). -/
def richElText : RichEl → List String
  | .textEl s => if s != "" then [s] else []
  | .linkEl u => if u != "" then [u] else []
  | .otherEl => []

/-- Fragments contributed by one element of a rich-text block. -/
def sectionText : SectionEl → List String
  | .richSection els => (els.map richElText).flatten
  | .otherPart => []

/-- Fragments contributed by one block: an `mrkdwn` text dict with truthy
text, then — additionally, for a `rich_text` block — the rich-text pieces. -/
def blockText (b : Block) : List String :=
  (match b.textObj with
   | some t => if t.type == "mrkdwn" && t.text != "" then [t.text] else []
   | none => []) ++
  (if b.type == "rich_text" then (b.elements.map sectionText).flatten else [])

/-- `collect_text_from_blocks(blocks)`: empty when `blocks` is not a list,
otherwise all fragments joined with newlines. -/
def collect_text_from_blocks (blocks : Option (List Block)) : String :=
  match blocks with
  | none => ""
  | some bs => String.intercalate "\n" ((bs.map blockText).flatten)

/-- One legacy attachment: its `text` field (`""` when absent or falsy). -/
structure Attachment where
  text : String
deriving DecidableEq

/-- A Slack message object: `ts`, plain `text` (`""` when absent, as the
source replaces falsy values by `""`), `blocks`, `attachments`. -/
structure SlackMsg where
  ts : Option String
  text : String
  blocks : Option (List Block)
  attachments : List Attachment
deriving DecidableEq

/-- `get_full_text(msg)`: plain text, block text and the attachment
accumulator (which prefixes each attachment's text with a newline), with
falsy parts dropped and the rest joined by newlines. -/
def get_full_text (msg : SlackMsg) : String :=
  let base := msg.text
  let blocksTxt := collect_text_from_blocks msg.blocks
  let attachmentsTxt := msg.attachments.foldl
    (fun acc a => if a.text != "" then acc ++ "\n" ++ a.text else acc) ""
  String.intercalate "\n" ([base, blocksTxt, attachmentsTxt].filter (fun t => t != ""))

/-- The attachment section of `get_full_text` written non-imperatively:
each text-bearing attachment contributes a newline followed by its text. -/
def attachSection : List Attachment → String
  | [] => ""
  | a :: as => (if a.text != "" then "\n" ++ a.text else "") ++ attachSection as

/-- A sheet row as the source builds it: `dict(zip(header, row))`. -/
abbrev Dict := List (String × String)

/-- Python `row.get(k, "")` on a dict built from key/value pairs where a
later duplicate key overwrites an earlier one. -/
def dictGet (d : Dict) (k : String) : String :=
  match d.reverse.find? (fun p => p.1 == k) with
  | some p => p.2
  | none => ""

/-- Header-to-value zipping of the sheet values: first row is the header,
each later row becomes a dict (shorter rows simply lack the tail keys). -/
def parseRows (values : List (List String)) : List Dict :=
  match values with
  | [] => []
  | hdr :: rest => rest.map (fun r => hdr.zip r)

/-- State of the `TTLCache(maxsize=1, ttl=60)`: at most one entry, holding
the cached rows and the instant at which they expire (insertion time + 60).
`cachetools` treats an entry as present exactly while `now` is strictly
below its expiry and evicts it on the access that finds it expired. -/
structure CacheState where
  entry : Option (List Dict × Nat)
deriving DecidableEq

/-- The cache-miss path of `get_mapping`: perform the sheet fetch; an empty
value range returns `[]` WITHOUT populating the cache; otherwise the parsed
rows are stored with a fresh 60-second expiry. A failed fetch raises (the
caller's catch-all receives it). -/
def get_mapping_miss (fetchRes : Except String (List (List String))) (now : Nat) :
    Except String (List Dict × CacheState) :=
  match fetchRes with
  | .error e => .error e
  | .ok values =>
    match values with
    | [] => .ok ([], ⟨none⟩)
    | hdr :: rest => .ok (rest.map (fun r => hdr.zip r),
                          ⟨some (rest.map (fun r => hdr.zip r), now + 60)⟩)

/-- `get_mapping()` at instant `now`, with `fetchRes` the value range the
sheets API would deliver if consulted: a valid cached entry is returned
unchanged without any fetch; otherwise the miss path runs. -/
def get_mapping (fetchRes : Except String (List (List String))) (now : Nat)
    (st : CacheState) : Except String (List Dict × CacheState) :=
  match st.entry with
  | some (rows, expiry) =>
    if now < expiry then .ok (rows, st)
    else get_mapping_miss fetchRes now
  | none => get_mapping_miss fetchRes now

/-- The row lookup of the handler: first row whose lowercased `Dominio`
equals the resolved domain verbatim. -/
def lookupRow (mapping : List Dict) (domain : String) : Option Dict :=
  mapping.find? (fun r => pyLowerS (dictGet r "Dominio") == domain)

/-- Outcome of the authorization checks of `handle_reaction_added`
(lines 162-182 of the source), one constructor per distinct skip reason. -/
inductive AuthResult where
  | notMapped
  | inactive (cliente : String)
  | notAuthorized (cliente : String)
  | noChannel (cliente : String)
  | authorized (row : Dict) (channel : String)
deriving DecidableEq

/-- The authorization gate: row lookup, then the `Activo` check, then the
manager-identity check, then the destination-channel check, in the source's
order with short-circuit on the first failure. -/
def authorize (domain : String) (user : Option String) (mapping : List Dict) :
    AuthResult :=
  match lookupRow mapping domain with
  | none => .notMapped
  | some row =>
    if pyLowerS (pyStripS (dictGet row "Activo")) != "true" then
      .inactive (dictGet row "Cliente")
    else if user != some (pyStripS (dictGet row "ManagerSlackID")) then
      .notAuthorized (dictGet row "Cliente")
    else if pyStripS (dictGet row "ClientChannelID") == "" then
      .noChannel (dictGet row "Cliente")
    else
      .authorized row (pyStripS (dictGet row "ClientChannelID"))

/-- The fields of a `reaction_added` event the handler reads. -/
structure Event where
  user : Option String
  channel : Option String
  ts : Option String
  reaction : Option String

/-- The external collaborators of one handler invocation: what the two
message-fetch calls, the sheet fetch and the destination post would return.
An `error` value models the call raising. -/
structure Env where
  history : Except String (List SlackMsg)
  replies : Except String (List SlackMsg)
  mapping : Except String (List Dict)
  post : String → String → Except String Unit

/-- `fetch_message_or_reply`: try `conversations_history` first, accepting
its head message only when its `ts` equals the target; on mismatch, error
or no message, try `conversations_replies` and accept its head message.
Slack API errors are swallowed by the inner try/except blocks. -/
def fetch_message_or_reply (env : Env) (ts : Option String) : Option SlackMsg :=
  let viaReplies : Option SlackMsg :=
    match env.replies with
    | .ok (m :: _) => some m
    | _ => none
  match env.history with
  | .ok (m :: _) => if m.ts == ts then some m else viaReplies
  | _ => viaReplies

/-- What one handler invocation did, one constructor per logged outcome. -/
inductive Outcome where
  | noMessage
  | noText
  | noDomain
  | notMapped (domain : String)
  | inactive (cliente : String)
  | notAuthorized (cliente : String)
  | noChannel (cliente : String)
  | sent (channel text : String)
  | sendFailed (channel err : String)
  | caught (err : String)
deriving DecidableEq

/-- Whether the outcome involved invoking the relay post at all. -/
def relayInvoked : Outcome → Bool
  | .sent _ _ => true
  | .sendFailed _ _ => true
  | _ => false

/-- The body of the `try` block of `handle_reaction_added`: the per-event
pipeline in the source's order. Only the sheet fetch raises out of it;
the relay post failure is caught by the inner try/except. -/
def pipeline (ev : Event) (env : Env) : Except String Outcome :=
  match fetch_message_or_reply env ev.ts with
  | none => .ok .noMessage
  | some msg =>
    let full := get_full_text msg
    if full == "" then .ok .noText
    else
      match extract_domain_from_text full with
      | none => .ok .noDomain
      | some domain =>
        match env.mapping with
        | .error e => .error e
        | .ok mapping =>
          match authorize domain ev.user mapping with
          | .notMapped => .ok (.notMapped domain)
          | .inactive c => .ok (.inactive c)
          | .notAuthorized c => .ok (.notAuthorized c)
          | .noChannel c => .ok (.noChannel c)
          | .authorized _ ch =>
            match env.post ch full with
            | .ok _ => .ok (.sent ch full)
            | .error e => .ok (.sendFailed ch e)

/-- How a handler invocation terminates, as its subscriber sees it. -/
inductive HandlerReturn where
  | normal (o : Outcome)
  | exceptional (e : String)
deriving DecidableEq

/-- `handle_reaction_added`: the pipeline wrapped in the catch-all
`except Exception`, which logs and returns normally. -/
def handle_reaction_added (ev : Event) (env : Env) : HandlerReturn :=
  match pipeline ev env with
  | .ok o => .normal o
  | .error e => .normal (.caught e)

/-! ## General lemmas about the embedded operations -/

theorem find?_append_first {α : Type} (p : α → Bool) (pre : List α) (r : α)
    (post : List α) (hpre : ∀ x ∈ pre, p x = false) (hr : p r = true) :
    List.find? p (pre ++ r :: post) = some r := by
  induction pre with
  | nil => exact List.find?_cons_of_pos _ hr
  | cons a as ih =>
    rw [List.cons_append,
      List.find?_cons_of_neg _ (by simp [hpre a (List.mem_cons_self a as)])]
    exact ih (fun x hx => hpre x (List.mem_cons_of_mem a hx))

theorem findMarkerIdx_append (pre : List String) (ml : String) (rest : List String)
    (hpre : ∀ l ∈ pre, hasMarker l = false) (hml : hasMarker ml = true) :
    findMarkerIdx (pre ++ ml :: rest) = some pre.length := by
  induction pre with
  | nil => simp [findMarkerIdx, hml]
  | cons a as ih =>
    have ih' := ih (fun l hl => hpre l (List.mem_cons_of_mem a hl))
    simp [findMarkerIdx, hpre a (List.mem_cons_self a as), ih']

theorem firstMatch_cons_none (l : String) (rest : List String)
    (h : searchEmailAux l.data = none) :
    firstMatch (l :: rest) = firstMatch rest := by
  simp [firstMatch, h]

theorem firstMatch_cons_some (l : String) (rest : List String) (cap : List Char)
    (h : searchEmailAux l.data = some cap) :
    firstMatch (l :: rest) = some cap := by
  simp [firstMatch, h]

theorem firstMatch_append_none (A B : List String)
    (h : ∀ l ∈ A, searchEmailAux l.data = none) :
    firstMatch (A ++ B) = firstMatch B := by
  induction A with
  | nil => rfl
  | cons a as ih =>
    rw [List.cons_append, firstMatch_cons_none _ _ (h a (List.mem_cons_self a as))]
    exact ih (fun l hl => h l (List.mem_cons_of_mem a hl))

theorem extract_window_eq (text : String) (i : Nat) (cap : List Char)
    (h1 : findMarkerIdx (py_splitlines text) = some i)
    (h2 : firstMatch (((py_splitlines text).drop i).take 4) = some cap) :
    extract_domain_from_text text = some (normWindow cap) := by
  unfold extract_domain_from_text
  simp only [h1, h2]

theorem extract_fallback_of_no_marker (text : String)
    (h1 : findMarkerIdx (py_splitlines text) = none) :
    extract_domain_from_text text = (searchEmailAux text.data).map normFallback := by
  unfold extract_domain_from_text
  simp only [h1]

theorem extract_fallback_of_window_none (text : String) (i : Nat)
    (h1 : findMarkerIdx (py_splitlines text) = some i)
    (h2 : firstMatch (((py_splitlines text).drop i).take 4) = none) :
    extract_domain_from_text text = (searchEmailAux text.data).map normFallback := by
  unfold extract_domain_from_text
  simp only [h1, h2]

/-! ## Mapping rows used in concrete instantiations -/

/-- A mapping row with a lowercase stored domain. -/
def rowAcme : Dict :=
  [("Dominio", "acme.com"), ("Cliente", "Acme"), ("ClientChannelID", "C999"),
   ("PodChannelID", "P1"), ("ManagerSlackID", "U123"), ("Activo", "true")]

/-- A mapping row whose stored domain carries uppercase letters. -/
def rowUp : Dict :=
  [("Dominio", "ACME.com"), ("Cliente", "AcmeUp"), ("ClientChannelID", "C777"),
   ("PodChannelID", "P2"), ("ManagerSlackID", "U456"), ("Activo", "true")]

/-- A mapping row for an unrelated domain. -/
def rowBeta : Dict :=
  [("Dominio", "beta.org"), ("Cliente", "Beta"), ("ClientChannelID", "C888"),
   ("PodChannelID", "P3"), ("ManagerSlackID", "U789"), ("Activo", "true")]

/-! ## Claim theorems -/

/-- C8: a successful non-empty fetch populates the cache; every repeated
`get_mapping` call strictly within the 60-second window from that fetch
returns the identical rows without consulting the source (the result is
independent of the fetch argument), and once the window has elapsed the
next call re-fetches and returns rows parsed from the updated source. -/
theorem get_mapping_ttl (vals : List (List String)) (t0 t : Nat)
    (rows : List Dict) (st1 : CacheState)
    (hvals : vals ≠ [])
    (h1 : get_mapping (Except.ok vals) t0 ⟨none⟩ = Except.ok (rows, st1)) :
    (t < t0 + 60 → ∀ fetchRes, get_mapping fetchRes t st1 = Except.ok (rows, st1)) ∧
    (t0 + 60 ≤ t → ∀ hdr rest, get_mapping (Except.ok (hdr :: rest)) t st1 =
       Except.ok (rest.map (fun r => hdr.zip r),
                  ⟨some (rest.map (fun r => hdr.zip r), t + 60)⟩)) := by
  match vals, hvals with
  | hdr0 :: rest0, _ =>
    have h1' : (Except.ok (rest0.map (fun r => hdr0.zip r),
        (⟨some (rest0.map (fun r => hdr0.zip r), t0 + 60)⟩ : CacheState)) :
        Except String (List Dict × CacheState)) = Except.ok (rows, st1) := h1
    injection h1' with h1''
    obtain ⟨hrows, hst⟩ := Prod.mk.injEq .. ▸ h1''
    subst hst
    constructor
    · intro ht fetchRes
      subst hrows
      simp [get_mapping, ht]
    · intro ht hdr rest
      simp [get_mapping, get_mapping_miss, Nat.not_lt.mpr ht]

/-- C8 witness: with the sheet serving one data row at instant 0, a call at
instant 59 returns the cached row even though the source now differs, and a
call at instant 60 returns the updated source's row. -/
theorem get_mapping_ttl_witness :
    get_mapping (Except.ok [["Dominio"], ["acme.com"]]) 0 ⟨none⟩ =
      Except.ok ([[("Dominio", "acme.com")]],
                 ⟨some ([[("Dominio", "acme.com")]], 60)⟩) ∧
    get_mapping (Except.ok [["Dominio"], ["changed.io"]]) 59
        ⟨some ([[("Dominio", "acme.com")]], 60)⟩ =
      Except.ok ([[("Dominio", "acme.com")]],
                 ⟨some ([[("Dominio", "acme.com")]], 60)⟩) ∧
    get_mapping (Except.ok [["Dominio"], ["changed.io"]]) 60
        ⟨some ([[("Dominio", "acme.com")]], 60)⟩ =
      Except.ok ([[("Dominio", "changed.io")]],
                 ⟨some ([[("Dominio", "changed.io")]], 120)⟩) := by
  refine ⟨rfl, ?_, ?_⟩
  · exact (get_mapping_ttl [["Dominio"], ["acme.com"]] 0 59 _ _ (by decide) rfl).1
      (by decide) _
  · exact (get_mapping_ttl [["Dominio"], ["acme.com"]] 0 60 _ _ (by decide) rfl).2
      (by decide) ["Dominio"] [["changed.io"]]

/-- C10: when the fetch succeeds with an empty value range, `get_mapping`
returns the empty list and leaves the cache unpopulated, so a next call at
any instant — even one still inside what would have been the TTL window —
reaches the fetch again and returns the new source's parsed rows. -/
theorem get_mapping_empty_not_cached (t t' : Nat) (hdr : List String)
    (rest : List (List String)) (h : t' < t + 60) :
    get_mapping (Except.ok []) t ⟨none⟩ = Except.ok ([], ⟨none⟩) ∧
    get_mapping (Except.ok (hdr :: rest)) t' ⟨none⟩ =
      Except.ok (rest.map (fun r => hdr.zip r),
                 ⟨some (rest.map (fun r => hdr.zip r), t' + 60)⟩) :=
  ⟨rfl, rfl⟩

/-- C10 witness: empty fetch at instant 0 caches nothing; a fetch 30 seconds
later already reflects a changed source. -/
theorem get_mapping_empty_not_cached_witness :
    get_mapping (Except.ok []) 0 ⟨none⟩ = Except.ok ([], ⟨none⟩) ∧
    get_mapping (Except.ok [["Dominio"], ["acme.com"]]) 30 ⟨none⟩ =
      Except.ok ([[("Dominio", "acme.com")]],
                 ⟨some ([[("Dominio", "acme.com")]], 90)⟩) :=
  get_mapping_empty_not_cached 0 30 ["Dominio"] [["acme.com"]] (by decide)

/-- C2 counterexample: the lookup lowercases only the stored domain, never
the query, so over the same one-row table the queries `"ACME.com"` and
`"acme.com"` yield absence and presence respectively — not the same row. -/
theorem lookup_query_case_cex :
    lookupRow [rowAcme] "ACME.com" = none ∧
    lookupRow [rowAcme] "acme.com" = some rowAcme := by
  constructor <;> rfl

/-- C2 amended: lookup is case-insensitive in the stored `Dominio` field
only — the first row whose lowercased stored domain equals the query string
verbatim is returned, and any returned row's lowercased domain equals the
query (so a query containing uppercase can only match rows whose lowercased
domain reproduces it, which lowercasing never does). -/
theorem lookup_row_side_case_insensitive :
    (∀ (pre : List Dict) (r : Dict) (post : List Dict) (q : String),
        (∀ r' ∈ pre, ¬ pyLowerS (dictGet r' "Dominio") = q) →
        pyLowerS (dictGet r "Dominio") = q →
        lookupRow (pre ++ r :: post) q = some r) ∧
    (∀ (mapping : List Dict) (q : String) (row : Dict),
        lookupRow mapping q = some row → pyLowerS (dictGet row "Dominio") = q) := by
  constructor
  · intro pre r post q hpre hr
    exact find?_append_first _ pre r post
      (fun x hx => by simp [hpre x hx]) (by simp [hr])
  · intro mapping q row h
    simpa using List.find?_some h

/-- C2 amended witness: a stored domain `"ACME.com"` is found by the
lowercase query `"acme.com"` even behind a non-matching row. -/
theorem lookup_row_side_case_insensitive_witness :
    lookupRow [rowBeta, rowUp] "acme.com" = some rowUp := by
  have h := lookup_row_side_case_insensitive.1 [rowBeta] rowUp [] "acme.com"
    (by decide) (by decide)
  exact h

theorem authorize_inactive (domain : String) (user : Option String)
    (mapping : List Dict) (row : Dict)
    (hrow : lookupRow mapping domain = some row)
    (hA : ¬ pyLowerS (pyStripS (dictGet row "Activo")) = "true") :
    authorize domain user mapping = .inactive (dictGet row "Cliente") := by
  unfold authorize
  rw [hrow]
  simp [hA]

theorem authorize_notAuthorized (domain : String) (user : Option String)
    (mapping : List Dict) (row : Dict)
    (hrow : lookupRow mapping domain = some row)
    (hA : pyLowerS (pyStripS (dictGet row "Activo")) = "true")
    (hu : ¬ user = some (pyStripS (dictGet row "ManagerSlackID"))) :
    authorize domain user mapping = .notAuthorized (dictGet row "Cliente") := by
  unfold authorize
  rw [hrow]
  simp [hA, hu]

theorem authorize_noChannel (domain : String) (user : Option String)
    (mapping : List Dict) (row : Dict)
    (hrow : lookupRow mapping domain = some row)
    (hA : pyLowerS (pyStripS (dictGet row "Activo")) = "true")
    (hu : user = some (pyStripS (dictGet row "ManagerSlackID")))
    (hch : pyStripS (dictGet row "ClientChannelID") = "") :
    authorize domain user mapping = .noChannel (dictGet row "Cliente") := by
  unfold authorize
  rw [hrow]
  simp [hA, hu, hch]

theorem authorize_passes (domain : String) (user : Option String)
    (mapping : List Dict) (row : Dict)
    (hrow : lookupRow mapping domain = some row)
    (hA : pyLowerS (pyStripS (dictGet row "Activo")) = "true")
    (hu : user = some (pyStripS (dictGet row "ManagerSlackID")))
    (hch : ¬ pyStripS (dictGet row "ClientChannelID") = "") :
    authorize domain user mapping =
      .authorized row (pyStripS (dictGet row "ClientChannelID")) := by
  unfold authorize
  rw [hrow]
  simp [hA, hu, hch]

/-- With the fetch, text, domain and mapping stages all succeeding, the
pipeline's result is decided by the authorization gate alone. -/
theorem pipeline_auth (ev : Event) (env : Env) (msg : SlackMsg)
    (domain : String) (mapping : List Dict)
    (hmsg : fetch_message_or_reply env ev.ts = some msg)
    (htext : ¬ get_full_text msg = "")
    (hdom : extract_domain_from_text (get_full_text msg) = some domain)
    (hmap : env.mapping = Except.ok mapping) :
    pipeline ev env =
      match authorize domain ev.user mapping with
      | .notMapped => .ok (.notMapped domain)
      | .inactive c => .ok (.inactive c)
      | .notAuthorized c => .ok (.notAuthorized c)
      | .noChannel c => .ok (.noChannel c)
      | .authorized _ ch =>
        match env.post ch (get_full_text msg) with
        | .ok _ => .ok (.sent ch (get_full_text msg))
        | .error e => .ok (.sendFailed ch e) := by
  unfold pipeline
  simp [hmsg, htext, hdom, hmap]

/-- C1: under a resolved domain whose mapping row is found, the gate checks
run in the source's fixed order with short-circuit: a row whose trimmed,
lowercased `Activo` differs from `"true"` is skipped as inactive even when
the user matches the manager; an active row with a mismatched user is
skipped as not authorized; an active row with matching user but blank
channel is skipped for lack of a destination; and whenever the relay post
was invoked at all, all three conditions necessarily held. -/
theorem auth_gate_checks_in_order
    (ev : Event) (env : Env) (msg : SlackMsg) (domain : String)
    (mapping : List Dict) (row : Dict)
    (hmsg : fetch_message_or_reply env ev.ts = some msg)
    (htext : ¬ get_full_text msg = "")
    (hdom : extract_domain_from_text (get_full_text msg) = some domain)
    (hmap : env.mapping = Except.ok mapping)
    (hrow : lookupRow mapping domain = some row) :
    (¬ pyLowerS (pyStripS (dictGet row "Activo")) = "true" →
       handle_reaction_added ev env =
         .normal (.inactive (dictGet row "Cliente"))) ∧
    (pyLowerS (pyStripS (dictGet row "Activo")) = "true" →
     ¬ ev.user = some (pyStripS (dictGet row "ManagerSlackID")) →
       handle_reaction_added ev env =
         .normal (.notAuthorized (dictGet row "Cliente"))) ∧
    (pyLowerS (pyStripS (dictGet row "Activo")) = "true" →
     ev.user = some (pyStripS (dictGet row "ManagerSlackID")) →
     pyStripS (dictGet row "ClientChannelID") = "" →
       handle_reaction_added ev env =
         .normal (.noChannel (dictGet row "Cliente"))) ∧
    (∀ o, handle_reaction_added ev env = .normal o → relayInvoked o = true →
       pyLowerS (pyStripS (dictGet row "Activo")) = "true" ∧
       ev.user = some (pyStripS (dictGet row "ManagerSlackID")) ∧
       ¬ pyStripS (dictGet row "ClientChannelID") = "") := by
  have hp := pipeline_auth ev env msg domain mapping hmsg htext hdom hmap
  refine ⟨?_, ?_, ?_, ?_⟩
  · intro hA
    unfold handle_reaction_added
    rw [hp, authorize_inactive domain ev.user mapping row hrow hA]
  · intro hA hu
    unfold handle_reaction_added
    rw [hp, authorize_notAuthorized domain ev.user mapping row hrow hA hu]
  · intro hA hu hch
    unfold handle_reaction_added
    rw [hp, authorize_noChannel domain ev.user mapping row hrow hA hu hch]
  · intro o ho hrelay
    by_cases hA : pyLowerS (pyStripS (dictGet row "Activo")) = "true"
    · by_cases hu : ev.user = some (pyStripS (dictGet row "ManagerSlackID"))
      · by_cases hch : pyStripS (dictGet row "ClientChannelID") = ""
        · have h3 : handle_reaction_added ev env =
              .normal (.noChannel (dictGet row "Cliente")) := by
            unfold handle_reaction_added
            rw [hp, authorize_noChannel domain ev.user mapping row hrow hA hu hch]
          rw [h3] at ho
          injection ho with ho'
          rw [← ho'] at hrelay
          simp [relayInvoked] at hrelay
        · exact ⟨hA, hu, hch⟩
      · have h2 : handle_reaction_added ev env =
            .normal (.notAuthorized (dictGet row "Cliente")) := by
          unfold handle_reaction_added
          rw [hp, authorize_notAuthorized domain ev.user mapping row hrow hA hu]
        rw [h2] at ho
        injection ho with ho'
        rw [← ho'] at hrelay
        simp [relayInvoked] at hrelay
    · have h1 : handle_reaction_added ev env =
          .normal (.inactive (dictGet row "Cliente")) := by
        unfold handle_reaction_added
        rw [hp, authorize_inactive domain ev.user mapping row hrow hA]
      rw [h1] at ho
      injection ho with ho'
      rw [← ho'] at hrelay
      simp [relayInvoked] at hrelay

/-- A message whose text resolves to the domain `acme.com`. -/
def msgAcme : SlackMsg :=
  ⟨some "111.22", "Desde qué mail salió la reunión: a@acme.com", none, []⟩

/-- A `reaction_added` event by the non-manager user `U999`. -/
def evOther : Event := ⟨some "U999", some "C0", some "111.22", some "eyes"⟩

/-- An environment serving `msgAcme` and the one-row mapping `[rowAcme]`. -/
def envAcme : Env := ⟨.ok [msgAcme], .ok [], .ok [rowAcme], fun _ _ => .ok ()⟩

/-- C1 witness: user `U999` reacting under the active `acme.com` row managed
by `U123` ends in the not-authorized skip (and hence no relay). -/
theorem auth_gate_checks_in_order_witness :
    handle_reaction_added evOther envAcme = .normal (.notAuthorized "Acme") :=
  (auth_gate_checks_in_order evOther envAcme msgAcme "acme.com" [rowAcme] rowAcme
    rfl (by decide) (by decide) rfl rfl).2.1 (by decide) (by decide)

/-- The exact marker line of the spec's mailto test scenario. -/
def mailtoLine : String :=
  "Desde qué mail salió la reunión: <mailto:user@acme.com|user@acme.com>"

/-- The marker line alone, without an e-mail on it. -/
def markerColon : String := "Desde qué mail salió la reunión:"

/-- A window line carrying the e-mail `jane@foo.org`. -/
def contactLine : String := "contact: jane@foo.org"

/-- C3 counterexample: a text containing `mailtoLine` as one of its lines
for which the resolver returns `"b.c"`, not `"acme.com"` — an earlier
marker line's window wins. -/
theorem marker_line_any_text_cex :
    ((py_splitlines ("Desde qué mail salió la reunión: a@b.c\n" ++ mailtoLine)).contains
        mailtoLine) = true ∧
    extract_domain_from_text
        ("Desde qué mail salió la reunión: a@b.c\n" ++ mailtoLine) = some "b.c" ∧
    ¬ extract_domain_from_text
        ("Desde qué mail salió la reunión: a@b.c\n" ++ mailtoLine) = some "acme.com" := by
  refine ⟨by decide, by decide, by decide⟩

/-- C3 amended: for any text whose first marker-bearing line is exactly
`mailtoLine` (lines before it are arbitrary marker-free lines, lines after
it arbitrary), the resolver returns `"acme.com"`. -/
theorem marker_line_mailto_resolves (text : String) (pre post : List String)
    (hsplit : py_splitlines text = pre ++ mailtoLine :: post)
    (hpre : ∀ l ∈ pre, hasMarker l = false) :
    extract_domain_from_text text = some "acme.com" := by
  have h1 : findMarkerIdx (py_splitlines text) = some pre.length := by
    rw [hsplit]
    exact findMarkerIdx_append pre mailtoLine post hpre (by decide)
  have h2 : firstMatch (((py_splitlines text).drop pre.length).take 4) =
      some "acme.com".data := by
    rw [hsplit, List.drop_left]
    exact firstMatch_cons_some _ _ _ (by decide)
  rw [extract_window_eq text pre.length "acme.com".data h1 h2]
  decide

/-- C3 amended witness: a text with one marker-free line before
`mailtoLine` and one line after resolves to `"acme.com"`. -/
theorem marker_line_mailto_resolves_witness :
    extract_domain_from_text ("hola equipo\n" ++ mailtoLine ++ "\ngracias") =
      some "acme.com" :=
  marker_line_mailto_resolves ("hola equipo\n" ++ mailtoLine ++ "\ngracias")
    ["hola equipo"] ["gracias"] (by decide) (by decide)

/-- C4: with the first marker line e-mail-free and the e-mail line
`contactLine` at most three lines below it (all lines between them
e-mail-free), the resolver finds `"foo.org"` inside the inclusive 4-line
window starting at the marker line. -/
theorem window_four_lines (text : String) (pre mid post : List String)
    (hsplit : py_splitlines text = pre ++ markerColon :: (mid ++ contactLine :: post))
    (hpre : ∀ l ∈ pre, hasMarker l = false)
    (hmid : ∀ l ∈ mid, searchEmailAux l.data = none)
    (hlen : mid.length ≤ 2) :
    extract_domain_from_text text = some "foo.org" := by
  have h1 : findMarkerIdx (py_splitlines text) = some pre.length := by
    rw [hsplit]
    exact findMarkerIdx_append pre markerColon _ hpre (by decide)
  have h2 : firstMatch (((py_splitlines text).drop pre.length).take 4) =
      some "foo.org".data := by
    rw [hsplit, List.drop_left]
    show firstMatch (markerColon :: (mid ++ contactLine :: post).take 3) =
      some "foo.org".data
    rw [List.take_append_eq_append_take, List.take_of_length_le (by omega)]
    obtain ⟨k, hk⟩ : ∃ k, 3 - mid.length = k + 1 := ⟨2 - mid.length, by omega⟩
    rw [hk, List.take_succ_cons]
    rw [firstMatch_cons_none _ _ (by decide), firstMatch_append_none mid _ hmid]
    exact firstMatch_cons_some _ _ _ (by decide)
  rw [extract_window_eq text pre.length "foo.org".data h1 h2]
  decide

/-- C4 witness: marker line, one e-mail-free line, then the contact line —
the resolver returns `"foo.org"` from the window. -/
theorem window_four_lines_witness :
    extract_domain_from_text
        "Desde qué mail salió la reunión:\nskip me\ncontact: jane@foo.org\ntail" =
      some "foo.org" :=
  window_four_lines
    "Desde qué mail salió la reunión:\nskip me\ncontact: jane@foo.org\ntail"
    [] ["skip me"] ["tail"] (by decide) (by decide) (by decide) (by decide)

/-- C5 counterexample: on the fallback path the source performs no
trailing-noise cleanup: the text `"see bob@bar.io;"` (no marker line)
resolves to `"bar.io;"`, while the window path's normalization of the same
capture would give `"bar.io"`. -/
theorem fallback_no_cleanup_cex :
    extract_domain_from_text "see bob@bar.io;" = some "bar.io;" ∧
    normWindow "bar.io;".data = "bar.io" ∧
    ¬ ("bar.io;" : String) = "bar.io" := by
  refine ⟨by decide, by decide, by decide⟩

/-- C5 amended: whether triggered by a missing marker line or by an
exhausted window, the fallback scans the entire text once with the same
two-form e-mail pattern and normalizes the capture by whitespace-strip and
lowercase only — without the window path's trailing-noise strip. -/
theorem fallback_scan_trim_lower (text : String) :
    (findMarkerIdx (py_splitlines text) = none →
       extract_domain_from_text text =
         (searchEmailAux text.data).map (fun cap => String.mk (pyLower (pyStrip cap)))) ∧
    (∀ i, findMarkerIdx (py_splitlines text) = some i →
       firstMatch (((py_splitlines text).drop i).take 4) = none →
       extract_domain_from_text text =
         (searchEmailAux text.data).map (fun cap => String.mk (pyLower (pyStrip cap)))) := by
  constructor
  · intro h
    exact extract_fallback_of_no_marker text h
  · intro i h1 h2
    exact extract_fallback_of_window_none text i h1 h2

/-- C5 amended witness: the fallback on `"see bob@bar.io;"` returns exactly
the whitespace-stripped, lowercased capture. -/
theorem fallback_scan_trim_lower_witness :
    extract_domain_from_text "see bob@bar.io;" =
      (searchEmailAux "see bob@bar.io;".data).map
        (fun cap => String.mk (pyLower (pyStrip cap))) :=
  (fallback_scan_trim_lower "see bob@bar.io;").1 (by decide)

/-- C6: once the first marker line's 4-line window is exhausted, the
resolver's result is exactly the whole-text fallback scan (later marker
occurrences get no window of their own), and when that scan also finds
nothing the resolver returns `none` rather than failing. -/
theorem window_exhausted_fallback (text : String) (i : Nat)
    (h1 : findMarkerIdx (py_splitlines text) = some i)
    (h2 : firstMatch (((py_splitlines text).drop i).take 4) = none) :
    extract_domain_from_text text = (searchEmailAux text.data).map normFallback ∧
    (searchEmailAux text.data = none → extract_domain_from_text text = none) := by
  have h := extract_fallback_of_window_none text i h1 h2
  refine ⟨h, fun hn => ?_⟩
  rw [h, hn]
  rfl

/-- C6 witness: first marker's window has no e-mail; the whole-text
fallback finds `a@one.io` (before the second marker line), so the result is
`"one.io"` — a retry of the second marker's window would have produced
`"two.io"` instead. -/
theorem window_exhausted_fallback_witness :
    extract_domain_from_text
        "Desde qué mail salió la reunión:\nx\ny\nz\nearly a@one.io\nDesde qué mail salió la reunión:\nlater b@two.io" =
      some "one.io" := by
  have h := (window_exhausted_fallback
    "Desde qué mail salió la reunión:\nx\ny\nz\nearly a@one.io\nDesde qué mail salió la reunión:\nlater b@two.io"
    0 (by decide) (by decide)).1
  rw [h]
  decide

/-- C7 counterexample: with plain text `"hi"` and one attachment `"att"`,
`get_full_text` yields `"hi\n\natt"` — a double newline, not the single
newline separator the claim states. -/
theorem full_text_single_newline_cex :
    get_full_text ⟨none, "hi", none, [⟨"att"⟩]⟩ = "hi\n\natt" ∧
    ¬ get_full_text ⟨none, "hi", none, [⟨"att"⟩]⟩ = "hi\natt" := by
  refine ⟨by decide, by decide⟩

theorem attach_foldl (atts : List Attachment) (s : String) :
    atts.foldl (fun acc a => if a.text != "" then acc ++ "\n" ++ a.text else acc) s =
      s ++ attachSection atts := by
  induction atts generalizing s with
  | nil => simp [attachSection]
  | cons a as ih =>
    rw [List.foldl_cons, ih]
    by_cases hb : a.text = ""
    · simp [attachSection, hb]
    · simp [attachSection, hb, String.append_assoc]

/-- C7 amended: the extractor joins the non-empty parts among plain text,
block text and the attachment section with single newlines, where the
attachment section itself prefixes each text-bearing attachment's text
with a newline of its own; with no text-bearing content anywhere the
result is the empty string. -/
theorem get_full_text_parts (msg : SlackMsg) :
    get_full_text msg = String.intercalate "\n"
      (([msg.text, collect_text_from_blocks msg.blocks,
         attachSection msg.attachments]).filter (fun t => t != "")) ∧
    (msg.text = "" → collect_text_from_blocks msg.blocks = "" →
     attachSection msg.attachments = "" → get_full_text msg = "") := by
  have h : get_full_text msg = String.intercalate "\n"
      (([msg.text, collect_text_from_blocks msg.blocks,
         attachSection msg.attachments]).filter (fun t => t != "")) := by
    simp only [get_full_text]
    rw [attach_foldl]
    simp
  refine ⟨h, fun h1 h2 h3 => ?_⟩
  rw [h, h1, h2, h3]
  rfl

/-- C7 amended witness: a message with empty text, no blocks and one
text-less attachment extracts to the empty string. -/
theorem get_full_text_parts_witness :
    get_full_text ⟨none, "", none, [⟨""⟩]⟩ = "" :=
  (get_full_text_parts ⟨none, "", none, [⟨""⟩]⟩).2 rfl rfl rfl

/-- C9: for every inbound event and every behaviour of the external calls
(each allowed to fail), `handle_reaction_added` returns normally — no
exceptional return ever escapes the per-event catch-all. -/
theorem handler_never_raises (ev : Event) (env : Env) :
    ∃ o, handle_reaction_added ev env = HandlerReturn.normal o := by
  unfold handle_reaction_added
  cases hp : pipeline ev env with
  | ok o => exact ⟨o, by simp⟩
  | error e => exact ⟨.caught e, by simp⟩

end ReaccionReus
